import Mathlib

/-!
Verification development for the prompt-discipline session-analytics core:
the correction-pattern learner (`src/lib/patterns.ts`) and the twelve-category
scorecard engine (`src/tools/generate-scorecard.ts`).

Modelling conventions (shallow embedding of the TypeScript source):
* JS `number` arithmetic is modelled with exact rationals (`ℚ`); integer-valued
  results (scores, percentages) are `ℤ`.  `Math.round` is `jsRound`
  (round half toward positive infinity), matching JS semantics on the
  magnitudes that occur here.
* JS strings are Lean `String`s; `.length` counts characters (the inputs of
  interest are ASCII, where this agrees with UTF-16 length), `toLowerCase`
  maps `Char.toLower` over the characters, and `String.prototype.includes`
  is `strIncl`.
* `Array.prototype.sort` (stable since ES2019) with comparator
  `(a, b) => key(b) - key(a)` is `jsSortDesc`, a stable insertion sort by a
  descending integer key.
* Imperative loops are translated to folds/recursion in the standard way;
  `used`-set bookkeeping in the greedy clustering loop becomes the
  peel-first/absorb/recurse form, which visits exactly the same groups.
-/

namespace PromptDiscipline

/-- JS `Math.round`: round half toward +∞. -/
def jsRound (q : ℚ) : ℤ := ⌊q + 1/2⌋

/-- `clamp(v) = Math.max(0, Math.min(100, Math.round(v)))` (generate-scorecard.ts line 50). -/
def clamp (v : ℚ) : ℤ := max 0 (min 100 (jsRound v))

/-- `pct(num, den)` (generate-scorecard.ts line 109): `den === 0 ? 100 : Math.round((num / den) * 100)`. -/
def pct (num den : ℚ) : ℤ := if den = 0 then 100 else jsRound (num / den * 100)

/-- `letterGrade` (generate-scorecard.ts lines 36-48): fixed threshold ladder. -/
def letterGrade (score : ℚ) : String :=
  if 95 ≤ score then "A+"
  else if 90 ≤ score then "A"
  else if 85 ≤ score then "A-"
  else if 80 ≤ score then "B+"
  else if 75 ≤ score then "B"
  else if 70 ≤ score then "B-"
  else if 65 ≤ score then "C+"
  else if 60 ≤ score then "C"
  else if 55 ≤ score then "C-"
  else if 50 ≤ score then "D"
  else "F"

/-- Rank of a letter grade, `F` lowest (0) through `A+` highest (10); used to
state monotonicity ("never alphabetically better"). -/
def gradeRank (g : String) : ℕ :=
  if g = "A+" then 10
  else if g = "A" then 9
  else if g = "A-" then 8
  else if g = "B+" then 7
  else if g = "B" then 6
  else if g = "B-" then 5
  else if g = "C+" then 4
  else if g = "C" then 3
  else if g = "C-" then 2
  else if g = "D" then 1
  else 0

/-- ASCII lowercasing of a string (JS `toLowerCase` on the ASCII inputs used here). -/
def lowerStr (s : String) : String := String.mk (s.data.map Char.toLower)

/-- Substring test on character lists (JS `String.prototype.includes`). -/
def listIncl : List Char → List Char → Bool
  | [], needle => needle.isEmpty
  | c :: rest, needle => needle.isPrefixOf (c :: rest) || listIncl rest needle

/-- JS `hay.includes(needle)`. -/
def strIncl (hay needle : String) : Bool := listIncl hay.data needle.data

/-- Deduplicate keeping the first occurrence of each element
(JS `[...new Set(xs)]`, and the insertion order of `Object` keys). -/
def dedupFirst (l : List String) : List String :=
  l.foldl (fun acc k => if k ∈ acc then acc else acc ++ [k]) []

/-- Insert one element into a descending-by-key list, after all elements with a
key at least as large: the insertion step of a stable descending sort. -/
def jsInsert {α : Type} (k : α → ℤ) (c : α) : List α → List α
  | [] => [c]
  | d :: t => if k c ≤ k d then d :: jsInsert k c t else c :: d :: t

/-- Stable sort by descending integer key: the behaviour of
`arr.sort((a, b) => k(b) - k(a))` (JS sort is stable). -/
def jsSortDesc {α : Type} (k : α → ℤ) (l : List α) : List α :=
  l.foldl (fun acc c => jsInsert k c acc) []

/-- Champion fold: the element of `a :: l` with the largest key, preferring the
earliest on ties (written from the amended tie-break description). -/
def firstMaxBy {α : Type} (k : α → ℤ) (a : α) : List α → α
  | [] => a
  | c :: t => firstMaxBy k (if k a < k c then c else a) t

/-- Champion fold: the element of `a :: l` with the smallest key, preferring the
latest on ties (written from the amended tie-break description). -/
def lastMinBy {α : Type} (k : α → ℤ) (a : α) : List α → α
  | [] => a
  | c :: t => lastMinBy k (if k c ≤ k a then c else a) t

/-- Champion fold: the element of `a :: l` with the largest key, preferring the
latest on ties (the tie-break the spec asserts for `highlights.best`). -/
def lastMaxBy {α : Type} (k : α → ℤ) (a : α) : List α → α
  | [] => a
  | c :: t => lastMaxBy k (if k a ≤ k c then c else a) t

/-! ## Correction pattern learner (src/lib/patterns.ts)

`extractPatterns` reads the correction log through `readLog`; it is embedded
here as a function of that log (a list of `Correction` records).  The
display/metadata fields of a pattern that no claim touches (`pattern`
description string, `lastSeen`, `context`, `examples`) are not modelled;
`id`, `keywords`, `frequency` are. -/

/-- One record of `corrections.jsonl`; JS reads `c.user_said || ""` etc., so the
fields are modelled as total strings. -/
structure Correction where
  user_said : String
  wrong_action : String
  root_cause : String
  timestamp : String
deriving DecidableEq

/-- `CorrectionPattern` (patterns.ts lines 11-19), restricted to the fields the
claims are about. -/
structure CorrectionPattern where
  id : String
  keywords : List String
  frequency : ℕ
deriving DecidableEq

/-- The character class preserved by keyword extraction: letters, digits,
underscore, hyphen, slash, dot. -/
def isKwChar (c : Char) : Bool :=
  c.isAlphanum || c = '_' || c = '-' || c = '/' || c = '.'

/-- Split a character list at spaces (after sanitization every whitespace char
has become a single space, so this matches the JS `split(/\s+/)` up to empty
segments, which the length-3 filter below discards in both versions). -/
def splitSpaces (l : List Char) : List (List Char) :=
  l.foldr
    (fun c acc =>
      if c = ' ' then [] :: acc
      else
        match acc with
        | w :: ws => (c :: w) :: ws
        | [] => [[c]])
    [[]]

/-- The stop-word set of patterns.ts lines 25-31.  (The two entries containing
an apostrophe are written with the `\x27` escape; they are unreachable anyway,
because sanitization replaces apostrophes with spaces before matching.) -/
def stopWords : List String :=
  ["the", "and", "that", "this", "with", "for", "not", "but", "was", "are",
   "you", "your", "have", "has", "had", "been", "were", "will", "would",
   "could", "should", "can", "did", "does", "don", "isn", "isn\x27t", "don\x27t",
   "use", "used", "using", "from", "into", "about", "just", "wrong", "again",
   "said", "instead", "meant", "want", "wanted", "need", "like"]

/-- `extractKeywords` (patterns.ts lines 24-39): replace characters outside
the preserved class by spaces, split on whitespace, keep words of length ≥ 3,
lowercase, drop stop words, deduplicate keeping first occurrences. -/
def extractKeywords (text : String) : List String :=
  let cleaned := text.data.map (fun c => if isKwChar c then c else ' ')
  let words := (splitSpaces cleaned).map String.mk
  dedupFirst
    (((words.filter (fun w => decide (3 ≤ w.length))).map lowerStr).filter
      (fun w => !(stopWords.contains w)))

/-- `keywordOverlap` (patterns.ts lines 42-47): shared keywords divided by the
size of the smaller keyword list; 0 when either list is empty. -/
def keywordOverlap (a b : List String) : ℚ :=
  if a.length = 0 ∨ b.length = 0 then 0
  else ((a.filter (fun w => b.contains w)).length : ℚ) / ((min a.length b.length : ℕ) : ℚ)

/-- The per-correction record built at patterns.ts lines 61-68. -/
structure Entry where
  text : String
  keywords : List String
  timestamp : String
  userSaid : String
deriving DecidableEq

/-- patterns.ts lines 61-68: the text is `` `${user_said} ${wrong_action} ${root_cause}` ``. -/
def mkEntry (c : Correction) : Entry :=
  let t := c.user_said ++ " " ++ c.wrong_action ++ " " ++ c.root_cause
  ⟨t, extractKeywords t, c.timestamp, c.user_said⟩

/-- The absorption test of the clustering loop (patterns.ts line 80):
`keywordOverlap(seed.keywords, f.keywords) >= 0.3`. -/
def absorbs (seed f : Entry) : Bool :=
  decide ((3 : ℚ) / 10 ≤ keywordOverlap seed.keywords f.keywords)

/-- Greedy clustering loop of patterns.ts lines 70-88, in peel-first form: the
first not-yet-used entry seeds a group and absorbs every later unused entry
whose overlap with the seed is ≥ 0.3; the loop then continues from the next
unused entry.  Structural recursion on a fuel bounded by the list length so
that concrete instances evaluate; fuel ≥ length always holds at call sites. -/
def greedyClusterAux : ℕ → List Entry → List (List Entry)
  | _, [] => []
  | 0, _ :: _ => []
  | fuel + 1, e :: rest =>
    (e :: rest.filter (fun f => absorbs e f)) ::
      greedyClusterAux fuel (rest.filter (fun f => !(absorbs e f)))

/-- All greedy groups, singletons included (the loop keeps only groups of size
≥ 2; that filter is applied in `extractPatterns` below). -/
def greedyCluster (l : List Entry) : List (List Entry) :=
  greedyClusterAux l.length l

/-- patterns.ts lines 91-135: one pattern per kept group; keywords are ranked
by in-group frequency (`Object.entries` enumerates keys in first-insertion
order; the stable sort then orders by descending count), top 8 kept;
`frequency` is the group size. -/
def mkPattern (idx : ℕ) (group : List Entry) : CorrectionPattern :=
  let kwAll := (group.map (fun e => e.keywords)).flatten
  let order := dedupFirst kwAll
  let ranked := jsSortDesc (fun w => (kwAll.count w : ℤ)) order
  { id := "p" ++ toString (idx + 1)
    keywords := ranked.take 8
    frequency := group.length }

/-- `extractPatterns` (patterns.ts lines 56-138) as a function of the
correction log: cluster greedily, keep groups of size ≥ 2, build patterns,
sort by descending frequency (stable). -/
def extractPatterns (corrections : List Correction) : List CorrectionPattern :=
  if corrections.isEmpty then []
  else
    let entries := corrections.map mkEntry
    let groups := (greedyCluster entries).filter (fun g => decide (2 ≤ g.length))
    let pats := groups.enum.map (fun ig => mkPattern ig.1 ig.2)
    jsSortDesc (fun p => (p.frequency : ℤ)) pats

/-- `matchPatterns` (patterns.ts lines 144-159): keep the patterns with at
least 2 keywords occurring (lowercased) as substrings of the lowercased
prompt. -/
def matchPatterns (prompt : String) (patterns : List CorrectionPattern) :
    List CorrectionPattern :=
  if patterns.isEmpty then []
  else
    let promptLower := lowerStr prompt
    patterns.filter (fun p =>
      decide (2 ≤ (p.keywords.filter (fun kw => strIncl promptLower (lowerStr kw))).length))

/-! ## Scorecard engine (src/tools/generate-scorecard.ts)

`computeScorecard` consumes `ParsedSession[]` values built by
`classifyEvents`.  The source's `ParsedSession` interface carries the event
list plus filtered views (`userMessages`, `toolCalls`, …) computed once at
lines 74-80; those views are modelled as functions of the event list (the
spec's invariant: each view is a filter of the same underlying sequence).
`durationMinutes` comes from `Date` parsing of the first/last timestamps
(lines 82-89) and is kept as a field carrying that already-computed rational
value.  Display-only fields (`evidence`, `examples`, the scorecard `date`)
are not modelled.  JS numbers are modelled as exact rationals. -/

/-- One timeline event, restricted to the fields the scoring engine reads. -/
structure TimelineEvent where
  type : String
  content : String
deriving DecidableEq

/-- A parsed session: the ordered event list plus the precomputed duration. -/
structure ParsedSession where
  events : List TimelineEvent
  durationMinutes : ℚ

/-- classifyEvents line 74. -/
def ParsedSession.userMessages (s : ParsedSession) : List TimelineEvent :=
  s.events.filter (fun e => e.type == "user_prompt")

/-- classifyEvents line 76. -/
def ParsedSession.toolCalls (s : ParsedSession) : List TimelineEvent :=
  s.events.filter (fun e => e.type == "tool_call")

/-- classifyEvents line 77. -/
def ParsedSession.corrections (s : ParsedSession) : List TimelineEvent :=
  s.events.filter (fun e => e.type == "correction")

/-- classifyEvents line 79. -/
def ParsedSession.commits (s : ParsedSession) : List TimelineEvent :=
  s.events.filter (fun e => e.type == "git_commit")

/-- classifyEvents line 80. -/
def ParsedSession.subAgentSpawns (s : ParsedSession) : List TimelineEvent :=
  s.events.filter (fun e => e.type == "sub_agent_spawn")

/-- One category's result (`CategoryScore`, lines 16-22), without the
display-only `evidence`/`examples` fields. -/
structure CategoryScore where
  name : String
  score : ℤ
  grade : String
deriving DecidableEq

/-- The three regular-expression helpers of generate-scorecard.ts whose exact
matching semantics no claim depends on, abstracted as predicates:
`hasFileRef` (lines 105-107, the PATH_RE / FILE_EXT_RE test), the
file-path capture applied to tool-call content (line 206), and the first
path-token match applied to prompt content (line 238).  Every quantified
theorem below holds for every instantiation. -/
structure RegexPreds where
  hasFileRef : String → Bool
  toolFilePath : String → Option String
  promptPath : String → Option String

/-- The trivial instantiation used for closed concrete statements; on an empty
session list the predicates are never consulted. -/
def noPreds : RegexPreds := ⟨fun _ => false, fun _ => none, fun _ => none⟩

/-- `scorePlans` (lines 115-131). -/
def scorePlans (cfg : RegexPreds) (sessions : List ParsedSession) : CategoryScore :=
  if sessions.isEmpty then ⟨"Plans", 75, "B"⟩
  else
    let planned := sessions.countP (fun s =>
      (s.userMessages.take 3).any (fun m =>
        decide (100 < m.content.length) && cfg.hasFileRef m.content))
    let score := clamp ((pct (planned : ℚ) (sessions.length : ℚ) : ℤ) : ℚ)
    ⟨"Plans", score, letterGrade (score : ℚ)⟩

/-- `scoreClarification` (lines 133-148). -/
def scoreClarification (cfg : RegexPreds) (sessions : List ParsedSession) : CategoryScore :=
  let total : ℕ := (sessions.map (fun s => s.userMessages.length)).sum
  let specific : ℕ := (sessions.map (fun s =>
    s.userMessages.countP (fun m => cfg.hasFileRef m.content))).sum
  let score := clamp ((pct (specific : ℚ) (total : ℚ) : ℤ) : ℚ)
  ⟨"Clarification", score, letterGrade (score : ℚ)⟩

/-- `scoreDelegation` (lines 150-166). -/
def scoreDelegation (sessions : List ParsedSession) : CategoryScore :=
  let total : ℕ := (sessions.map (fun s => s.subAgentSpawns.length)).sum
  let quality : ℕ := (sessions.map (fun s =>
    s.subAgentSpawns.countP (fun e => decide (200 < e.content.length)))).sum
  if total = 0 then ⟨"Delegation", 75, "B"⟩
  else
    let score := clamp ((pct (quality : ℚ) (total : ℚ) : ℤ) : ℚ)
    ⟨"Delegation", score, letterGrade (score : ℚ)⟩

/-- Follow-up counting loop (lines 173-189) for one session: for each
`user_prompt` event whose nearest preceding `assistant_response`/`user_prompt`
event is an `assistant_response`, count it as a follow-up and as specific when
it has a file reference or length ≥ 50.  The backwards search of line 178 is
embedded as forward tracking of that nearest preceding message event. -/
def followUpCounts (cfg : RegexPreds) (events : List TimelineEvent) : ℕ × ℕ :=
  let st := events.foldl
    (fun (st : Option String × ℕ × ℕ) e =>
      let counts :=
        if e.type == "user_prompt" && st.1 == some "assistant_response" then
          (st.2.1 + 1,
           if cfg.hasFileRef e.content || decide (50 ≤ e.content.length) then st.2.2 + 1
           else st.2.2)
        else st.2
      let prev :=
        if e.type == "assistant_response" || e.type == "user_prompt" then some e.type
        else st.1
      (prev, counts))
    (none, 0, 0)
  st.2

/-- `scoreFollowUpSpecificity` (lines 168-198), examples omitted. -/
def scoreFollowUpSpecificity (cfg : RegexPreds) (sessions : List ParsedSession) : CategoryScore :=
  let totals := sessions.foldl
    (fun (acc : ℕ × ℕ) s =>
      let c := followUpCounts cfg s.events
      (acc.1 + c.1, acc.2 + c.2))
    (0, 0)
  let score := clamp ((pct (totals.2 : ℚ) (totals.1 : ℚ) : ℤ) : ℚ)
  ⟨"Follow-up Specificity", score, letterGrade (score : ℚ)⟩

/-- `scoreTokenEfficiency` (lines 200-230).  With zero sessions the JS ratio is
`0/0 = NaN`, every comparison with `NaN` is false, and the step chain falls
through to 40; that branch is made explicit. -/
def scoreTokenEfficiency (cfg : RegexPreds) (sessions : List ParsedSession) : CategoryScore :=
  let totalCalls : ℕ := (sessions.map (fun s => s.toolCalls.length)).sum
  let totalFiles : ℕ := (sessions.map (fun s =>
    let fs := dedupFirst (s.toolCalls.filterMap (fun tc => cfg.toolFilePath tc.content))
    if fs.length = 0 then 1 else fs.length)).sum
  let base : ℤ :=
    if totalFiles = 0 then 40
    else
      let ratio : ℚ := (totalCalls : ℚ) / (totalFiles : ℚ)
      if ratio ≤ 5 then 100
      else if ratio ≤ 10 then 90
      else if ratio ≤ 20 then 75
      else if ratio ≤ 40 then 60
      else 40
  let bloated := sessions.countP (fun s => decide (200 < s.toolCalls.length))
  let score := if 0 < bloated then clamp ((base : ℚ) - (bloated : ℚ) * 10) else base
  ⟨"Token Efficiency", clamp ((score : ℤ) : ℚ), letterGrade ((clamp ((score : ℤ) : ℚ) : ℤ) : ℚ)⟩

/-- Split a character list at a separator character. -/
def splitOnChar (sep : Char) (l : List Char) : List (List Char) :=
  l.foldr
    (fun c acc =>
      if c = sep then [] :: acc
      else
        match acc with
        | w :: ws => (c :: w) :: ws
        | [] => [[c]])
    [[]]

/-- The "area" of a prompt (lines 238-239): the matched path token with its
last `/`-separated component removed (`split("/").slice(0, -1).join("/")`),
or the empty string when there is no path match. -/
def promptArea (cfg : RegexPreds) (content : String) : String :=
  match cfg.promptPath content with
  | none => ""
  | some p => String.mk (List.intercalate ['/'] ((splitOnChar '/' p.data).dropLast))

/-- `scoreSequencing` (lines 232-259): count prompts whose area differs from
the previously seen nonempty area; `lastArea` resets per session. -/
def scoreSequencing (cfg : RegexPreds) (sessions : List ParsedSession) : CategoryScore :=
  let totals := sessions.foldl
    (fun (acc : ℕ × ℕ) s =>
      let inner := s.userMessages.foldl
        (fun (st : String × ℕ × ℕ) m =>
          let area := promptArea cfg m.content
          let sw :=
            if !(area == "") && !(st.1 == "") && !(area == st.1) then st.2.1 + 1 else st.2.1
          let la := if !(area == "") then area else st.1
          (la, sw, st.2.2 + 1))
        ("", acc)
      inner.2)
    (0, 0)
  let switchRate : ℚ :=
    if 0 < totals.2 then (totals.1 : ℚ) / (totals.2 : ℚ) else 0
  let score : ℤ :=
    if switchRate ≤ 0.05 then 100
    else if switchRate ≤ 0.1 then 90
    else if switchRate ≤ 0.2 then 75
    else if switchRate ≤ 0.35 then 60
    else 45
  ⟨"Sequencing", clamp ((score : ℤ) : ℚ), letterGrade ((clamp ((score : ℤ) : ℚ) : ℤ) : ℚ)⟩

/-- `scoreCompactionManagement` (lines 261-280).  The loop over
`s.compactions` with `cIdx = s.events.indexOf(c)` locates each compaction
object at its own position (JS reference equality), so it is embedded as a
loop over the compaction positions of the event list;
`slice(max(0, cIdx - 10), cIdx)` is the 10-event window before it. -/
def compactionTotals (sessions : List ParsedSession) : ℕ × ℕ :=
  sessions.foldl
    (fun (acc : ℕ × ℕ) s =>
      s.events.enum.foldl
        (fun (acc2 : ℕ × ℕ) ie =>
          if ie.2.type == "compaction" then
            let nearby := (s.events.take ie.1).drop (ie.1 - 10)
            (acc2.1 + 1,
             if nearby.any (fun e => e.type == "git_commit") then acc2.2 + 1 else acc2.2)
          else acc2)
        acc)
    (0, 0)

/-- Decision of lines 272-279 on the accumulated totals. -/
def scoreCompactionManagement (sessions : List ParsedSession) : CategoryScore :=
  let totals := compactionTotals sessions
  if totals.1 = 0 then ⟨"Compaction Management", 100, "A+"⟩
  else
    let score := clamp ((pct (totals.2 : ℚ) (totals.1 : ℚ) : ℤ) : ℚ)
    ⟨"Compaction Management", score, letterGrade (score : ℚ)⟩

/-- `scoreSessionLifecycle` (lines 282-299). -/
def scoreSessionLifecycle (sessions : List ParsedSession) : CategoryScore :=
  if sessions.isEmpty then ⟨"Session Lifecycle", 75, "B"⟩
  else
    let good : ℚ := sessions.foldl
      (fun g s =>
        if s.durationMinutes ≤ 0 then g + 1
        else if 180 < s.durationMinutes ∧ s.commits.length = 0 then g
        else
          let commitInterval : ℚ :=
            if 0 < s.commits.length then s.durationMinutes / (s.commits.length : ℚ)
            else s.durationMinutes
          if commitInterval ≤ 30 then g + 1
          else if commitInterval ≤ 60 then g + 1/2
          else g)
      0
    let score := clamp ((pct ((jsRound good : ℤ) : ℚ) (sessions.length : ℚ) : ℤ) : ℚ)
    ⟨"Session Lifecycle", score, letterGrade (score : ℚ)⟩

/-- Line 304: total event count over all sessions. -/
def totalMessages (sessions : List ParsedSession) : ℕ :=
  (sessions.map (fun s => s.events.length)).sum

/-- Lines 305-306: total number of correction events over all sessions. -/
def totalCorrections (sessions : List ParsedSession) : ℕ :=
  (sessions.map (fun s => s.corrections.length)).sum

/-- Lines 307-310: corrections followed within the next 2 events by a
`tool_call` or `assistant_response`.  The `indexOf`-based loop over
`s.corrections` locates each correction object at its own position (JS
reference equality), so it is embedded as a loop over correction positions;
`slice(cIdx + 1, cIdx + 3)` is the next two events. -/
def fastRecoveries (sessions : List ParsedSession) : ℕ :=
  (sessions.map (fun s =>
    s.events.enum.countP (fun ie =>
      ie.2.type == "correction" &&
        ((s.events.drop (ie.1 + 1)).take 2).any
          (fun e => e.type == "tool_call" || e.type == "assistant_response")))).sum

/-- Line 313: corrections per message (0 when there are no messages). -/
def correctionRate (sessions : List ParsedSession) : ℚ :=
  if 0 < totalMessages sessions then
    (totalCorrections sessions : ℚ) / (totalMessages sessions : ℚ)
  else 0

/-- `scoreErrorRecovery` (lines 301-325).  In the non-default branch
`totalCorrections > 0` always holds, so the guard of line 315 is always
taken: the base is clamped at line 314 and the sum is clamped again at
line 317. -/
def scoreErrorRecovery (sessions : List ParsedSession) : CategoryScore :=
  if totalCorrections sessions = 0 then ⟨"Error Recovery", 95, "A"⟩
  else
    let base := clamp (100 - correctionRate sessions * 500)
    let recoveryBonus : ℚ :=
      ((pct (fastRecoveries sessions : ℚ) (totalCorrections sessions : ℚ) : ℤ) : ℚ) * 0.2
    let score := clamp ((base : ℚ) + recoveryBonus)
    ⟨"Error Recovery", score, letterGrade (score : ℚ)⟩

/-- The per-session hygiene test of lines 329-332: the session's joined event
content references `.claude/` or `CLAUDE.md` (both regexes are literal,
case-sensitive substring tests). -/
def hygieneHit (s : ParsedSession) : Bool :=
  let allContent := String.intercalate " " (s.events.map (fun e => e.content))
  strIncl allContent ".claude/" || strIncl allContent "CLAUDE.md"

/-- `scoreWorkspaceHygiene` (lines 327-340): baseline 75 plus 5 per hygienic
session, bonus capped at 20. -/
def scoreWorkspaceHygiene (sessions : List ParsedSession) : CategoryScore :=
  let bonus := sessions.countP hygieneHit
  let score := clamp ((75 : ℚ) + ((if 0 < bonus then min (bonus * 5) 20 else 0 : ℕ) : ℚ))
  ⟨"Workspace Hygiene", score, letterGrade (score : ℚ)⟩

/-- `scoreCrossSessionContinuity` (lines 342-359); the case-insensitive
alternation of line 348 as substring tests on the lowercased content. -/
def scoreCrossSessionContinuity (sessions : List ParsedSession) : CategoryScore :=
  if sessions.isEmpty then ⟨"Cross-Session Continuity", 75, "B"⟩
  else
    let good := sessions.countP (fun s =>
      (s.toolCalls.take 3).any (fun tc =>
        let lc := lowerStr tc.content
        strIncl lc "claude.md" || strIncl lc ".claude/" || strIncl lc "checkpoint" ||
          strIncl lc "context" || strIncl lc "readme"))
    let score := clamp ((pct (good : ℚ) (sessions.length : ℚ) : ℤ) : ℚ)
    ⟨"Cross-Session Continuity", score, letterGrade (score : ℚ)⟩

/-- The `.` of the `cargo.test` alternative matches any character except a
line terminator. -/
def regexDot (c : Char) : Bool :=
  !(c = '\n' || c = '\r' || c = '\u2028' || c = '\u2029')

/-- Substring match for the `cargo.test` alternative of line 368. -/
def cargoTestHit : List Char → Bool
  | [] => false
  | c :: rest =>
    ("cargo".data.isPrefixOf (c :: rest) &&
      (match (c :: rest).drop 5 with
       | d :: rest2 => regexDot d && "test".data.isPrefixOf rest2
       | [] => false)) ||
    cargoTestHit rest

/-- The verification-command test of lines 367-369 (case-insensitive). -/
def verificationHit (e : TimelineEvent) : Bool :=
  e.type == "tool_call" &&
    (let lc := lowerStr e.content
     strIncl lc "test" || strIncl lc "build" || strIncl lc "lint" || strIncl lc "check" ||
       strIncl lc "verify" || strIncl lc "jest" || strIncl lc "vitest" ||
       strIncl lc "pytest" || cargoTestHit lc.data)

/-- `scoreVerification` (lines 361-379).  `Math.floor(totalEvents * 0.9)` is
modelled exactly as `9 * n / 10` (natural division); JS computes it in
binary floating point, which agrees on all realistic session sizes. -/
def scoreVerification (sessions : List ParsedSession) : CategoryScore :=
  if sessions.isEmpty then ⟨"Verification", 75, "B"⟩
  else
    let verified := sessions.countP (fun s =>
      (s.events.drop (9 * s.events.length / 10)).any verificationHit)
    let score := clamp ((pct (verified : ℚ) (sessions.length : ℚ) : ℤ) : ℚ)
    ⟨"Verification", score, letterGrade (score : ℚ)⟩

/-- Placeholder used only for the (never-reached) head/last of an empty sorted
list; the category list always has 12 entries. -/
def dumCat : CategoryScore := ⟨"", 0, ""⟩

/-- The scorecard (lines 24-32): `date` (wall clock) omitted; the `highlights`
object is flattened into `best`/`worst`. -/
structure Scorecard where
  project : String
  period : String
  overall : ℤ
  overallGrade : String
  categories : List CategoryScore
  best : CategoryScore
  worst : CategoryScore

/-- The fixed category list of `computeScorecard` (lines 388-401). -/
def scoreCategories (cfg : RegexPreds) (sessions : List ParsedSession) : List CategoryScore :=
  [scorePlans cfg sessions,
   scoreClarification cfg sessions,
   scoreDelegation sessions,
   scoreFollowUpSpecificity cfg sessions,
   scoreTokenEfficiency cfg sessions,
   scoreSequencing cfg sessions,
   scoreCompactionManagement sessions,
   scoreSessionLifecycle sessions,
   scoreErrorRecovery sessions,
   scoreWorkspaceHygiene sessions,
   scoreCrossSessionContinuity sessions,
   scoreVerification sessions]

/-- `computeScorecard` (lines 383-415): overall = `clamp(Math.round(mean))`;
best/worst = first/last of the stable descending sort by score. -/
def computeScorecard (cfg : RegexPreds) (sessions : List ParsedSession)
    (project period : String) : Scorecard :=
  let categories := scoreCategories cfg sessions
  let scores : List ℤ := categories.map (fun c => c.score)
  let overall :=
    clamp ((jsRound ((scores.sum : ℚ) / (categories.length : ℚ)) : ℤ) : ℚ)
  let sorted := jsSortDesc (fun c => c.score) categories
  { project := project
    period := period
    overall := overall
    overallGrade := letterGrade ((overall : ℤ) : ℚ)
    categories := categories
    best := sorted.headD dumCat
    worst := sorted.getLastD dumCat }

/-! ## Claim-support definitions -/

/-- The first category of maximal score in a category list (earliest index
wins a tie): the amended description of `highlights.best`. -/
def firstMaxCat (l : List CategoryScore) : CategoryScore :=
  match l with
  | [] => dumCat
  | a :: t => firstMaxBy (fun c => c.score) a t

/-- The last category of minimal score in a category list (latest index wins
a tie): the amended description of `highlights.worst`. -/
def lastMinCat (l : List CategoryScore) : CategoryScore :=
  match l with
  | [] => dumCat
  | a :: t => lastMinBy (fun c => c.score) a t

/-- The last category of maximal score (latest index wins a tie): the
tie-break the spec asserts for `highlights.best`. -/
def lastMaxCat (l : List CategoryScore) : CategoryScore :=
  match l with
  | [] => dumCat
  | a :: t => lastMaxBy (fun c => c.score) a t

/-- Cluster membership of a correction log: the kept greedy clusters viewed
as multisets of correction texts (the "collection of clusters viewed as sets
of corrections" of the order-insensitivity claim). -/
def clusterSets (l : List Correction) : Multiset (Multiset String) :=
  (((greedyCluster (l.map mkEntry)).filter (fun g => decide (2 ≤ g.length))).map
    (fun g => ((g.map (fun e => e.text) : List String) : Multiset String)) : List (Multiset String))

/-- Scenario corrections: two sharing keywords auth/jwt/expiry, one unrelated. -/
def cAuth1 : Correction := ⟨"auth jwt expiry", "", "", "t1"⟩

/-- Second correction with the same keywords. -/
def cAuth2 : Correction := ⟨"auth jwt expiry", "", "", "t2"⟩

/-- Unrelated correction sharing no keywords with the other two. -/
def cOther : Correction := ⟨"button color css", "", "", "t3"⟩

/-- The three-correction scenario log of the clustering claim. -/
def scenarioLog : List Correction := [cAuth1, cAuth2, cOther]

/-- The pattern of the matching claim's scenario. -/
def patAuth : CorrectionPattern := ⟨"p1", ["auth", "token", "expiry"], 2⟩

/-- Chain counterexample corrections: overlap(A,B) = overlap(B,C) = 1/2 ≥ 0.3
but overlap(A,C) = 0. -/
def chainA : Correction := ⟨"alpha beta", "", "", "t1"⟩

/-- Middle element of the chain. -/
def chainB : Correction := ⟨"beta gamma", "", "", "t2"⟩

/-- Last element of the chain. -/
def chainC : Correction := ⟨"gamma delta", "", "", "t3"⟩

/-- The session of the error-recovery counterexample: one correction
immediately followed by an assistant response. -/
def recSession : ParsedSession :=
  ⟨[⟨"correction", "no, wrong file"⟩, ⟨"assistant_response", "fixing"⟩], 0⟩

/-! ## Numeric lemmas -/

theorem jsRound_intCast (n : ℤ) : jsRound ((n : ℤ) : ℚ) = n := by
  unfold jsRound
  rw [Int.floor_int_add]
  norm_num

theorem jsRound_nonneg {q : ℚ} (h : 0 ≤ q) : 0 ≤ jsRound q := by
  unfold jsRound
  rw [Int.floor_nonneg]
  linarith

theorem jsRound_le {q : ℚ} {m : ℤ} (h : q ≤ (m : ℚ)) : jsRound q ≤ m := by
  unfold jsRound
  have h2 : ⌊q + 1/2⌋ ≤ ⌊(m : ℚ) + 1/2⌋ := Int.floor_le_floor (by linarith)
  rw [Int.floor_int_add] at h2
  norm_num at h2
  exact h2

theorem clamp_nonneg (q : ℚ) : 0 ≤ clamp q := le_max_left 0 _

theorem clamp_le_hundred (q : ℚ) : clamp q ≤ 100 :=
  max_le (by norm_num) (min_le_left 100 _)

theorem clamp_intCast {n : ℤ} (h0 : 0 ≤ n) (h1 : n ≤ 100) : clamp ((n : ℤ) : ℚ) = n := by
  unfold clamp
  rw [jsRound_intCast]
  omega

theorem clamp_eq_jsRound {q : ℚ} (h0 : 0 ≤ q) (h1 : q ≤ 100) : clamp q = jsRound q := by
  unfold clamp
  have hn : 0 ≤ jsRound q := jsRound_nonneg h0
  have hm : jsRound q ≤ 100 := jsRound_le (by exact_mod_cast h1)
  omega

/-! ## Stable descending sort lemmas -/

theorem jsInsert_perm {α : Type} (k : α → ℤ) (c : α) (l : List α) :
    (jsInsert k c l).Perm (c :: l) := by
  induction l with
  | nil => simp [jsInsert]
  | cons d t ih =>
    by_cases h : k c ≤ k d
    · simp only [jsInsert, if_pos h]
      exact (ih.cons d).trans (List.Perm.swap c d t)
    · simp [jsInsert, if_neg h]

theorem jsInsert_cons {α : Type} (k : α → ℤ) (c d : α) (t : List α) :
    jsInsert k c (d :: t) = if k c ≤ k d then d :: jsInsert k c t else c :: d :: t := by
  simp only [jsInsert]

theorem jsInsert_ne_nil {α : Type} (k : α → ℤ) (c : α) (l : List α) :
    jsInsert k c l ≠ [] := by
  cases l with
  | nil => simp [jsInsert]
  | cons d t => by_cases h : k c ≤ k d <;> simp [jsInsert, h]

theorem foldl_jsInsert_perm {α : Type} (k : α → ℤ) :
    ∀ (l acc : List α), (l.foldl (fun a c => jsInsert k c a) acc).Perm (acc ++ l) := by
  intro l
  induction l with
  | nil => intro acc; simp
  | cons c t ih =>
    intro acc
    simp only [List.foldl_cons]
    refine (ih (jsInsert k c acc)).trans ?_
    refine (List.Perm.append_right t (jsInsert_perm k c acc)).trans ?_
    exact List.perm_middle.symm

theorem jsSortDesc_perm {α : Type} (k : α → ℤ) (l : List α) :
    (jsSortDesc k l).Perm l := by
  simpa using foldl_jsInsert_perm k l []

theorem jsInsert_pairwise {α : Type} (k : α → ℤ) {c : α} {l : List α}
    (h : l.Pairwise (fun a b => k b ≤ k a)) :
    (jsInsert k c l).Pairwise (fun a b => k b ≤ k a) := by
  induction l with
  | nil => simp [jsInsert]
  | cons d t ih =>
    rcases List.pairwise_cons.1 h with ⟨hd, ht⟩
    by_cases hc : k c ≤ k d
    · simp only [jsInsert, if_pos hc]
      refine List.pairwise_cons.2 ⟨?_, ih ht⟩
      intro x hx
      rcases (List.mem_cons).1 ((jsInsert_perm k c t).mem_iff.1 hx) with hx | hx
      · exact hx ▸ hc
      · exact hd x hx
    · simp only [jsInsert, if_neg hc]
      have hdc : k d < k c := lt_of_not_le hc
      refine List.pairwise_cons.2 ⟨?_, h⟩
      intro x hx
      rcases (List.mem_cons).1 hx with hx | hx
      · exact hx ▸ le_of_lt hdc
      · exact (hd x hx).trans (le_of_lt hdc)

theorem foldl_jsInsert_pairwise {α : Type} (k : α → ℤ) :
    ∀ (l acc : List α), acc.Pairwise (fun a b => k b ≤ k a) →
      ((l.foldl (fun a c => jsInsert k c a) acc).Pairwise (fun a b => k b ≤ k a)) := by
  intro l
  induction l with
  | nil => intro acc h; simpa using h
  | cons c t ih =>
    intro acc h
    simp only [List.foldl_cons]
    exact ih _ (jsInsert_pairwise k h)

theorem jsSortDesc_pairwise {α : Type} (k : α → ℤ) (l : List α) :
    (jsSortDesc k l).Pairwise (fun a b => k b ≤ k a) :=
  foldl_jsInsert_pairwise k l [] (by simp)

theorem head?_jsInsert {α : Type} (k : α → ℤ) (c : α) (l : List α) :
    (jsInsert k c l).head? =
      some (match l with | [] => c | d :: _ => if k c ≤ k d then d else c) := by
  cases l with
  | nil => rfl
  | cons d t => by_cases h : k c ≤ k d <;> simp [jsInsert, h]

theorem head?_foldl_jsInsert {α : Type} (k : α → ℤ) :
    ∀ (l acc : List α) (a : α), acc.head? = some a →
      ((l.foldl (fun x c => jsInsert k c x) acc).head? = some (firstMaxBy k a l)) := by
  intro l
  induction l with
  | nil =>
    intro acc a h
    simpa [firstMaxBy] using h
  | cons c t ih =>
    intro acc a h
    cases acc with
    | nil => simp at h
    | cons a0 rest =>
      obtain rfl : a = a0 := by simpa using h.symm
      simp only [List.foldl_cons]
      have h2 : (jsInsert k c (a :: rest)).head? = some (if k c ≤ k a then a else c) := by
        simpa using head?_jsInsert k c (a :: rest)
      rw [ih (jsInsert k c (a :: rest)) _ h2]
      have h3 : (if k c ≤ k a then a else c) = (if k a < k c then c else a) := by
        by_cases h4 : k c ≤ k a
        · rw [if_pos h4, if_neg (not_lt.2 h4)]
        · rw [if_neg h4, if_pos (lt_of_not_le h4)]
      rw [show firstMaxBy k a (c :: t) = firstMaxBy k (if k a < k c then c else a) t from rfl,
        h3]

theorem head?_jsSortDesc {α : Type} (k : α → ℤ) (x : α) (xs : List α) :
    (jsSortDesc k (x :: xs)).head? = some (firstMaxBy k x xs) := by
  unfold jsSortDesc
  simp only [List.foldl_cons]
  exact head?_foldl_jsInsert k xs (jsInsert k x []) x (by simp [jsInsert])

theorem getLast?_cons_of_ne_nil {α : Type} {l : List α} (x : α) (h : l ≠ []) :
    (x :: l).getLast? = l.getLast? := by
  obtain ⟨y, ys, rfl⟩ := List.exists_cons_of_ne_nil h
  rw [List.getLast?_cons_cons]

theorem getLast?_mem_of_eq {α : Type} :
    ∀ {l : List α} {m : α}, l.getLast? = some m → m ∈ l := by
  intro l
  induction l with
  | nil => intro m h; simp at h
  | cons d t ih =>
    intro m h
    cases t with
    | nil =>
      simp only [List.getLast?_singleton, Option.some.injEq] at h
      simp [h]
    | cons e t2 =>
      rw [List.getLast?_cons_cons] at h
      exact List.mem_cons_of_mem d (ih h)

theorem getLast?_jsInsert {α : Type} (k : α → ℤ) {c : α} :
    ∀ {l : List α}, l.Pairwise (fun a b => k b ≤ k a) → ∀ {m : α}, l.getLast? = some m →
      (jsInsert k c l).getLast? = some (if k c ≤ k m then c else m) := by
  intro l
  induction l with
  | nil => intro _ m h; simp at h
  | cons d t ih =>
    intro hp m h
    rcases List.pairwise_cons.1 hp with ⟨hd, ht⟩
    cases t with
    | nil =>
      have hm : d = m := by simpa using h
      subst hm
      by_cases hc : k c ≤ k d
      · simp [jsInsert, hc]
      · simp [jsInsert, hc]
    | cons e t2 =>
      rw [List.getLast?_cons_cons] at h
      by_cases hc : k c ≤ k d
      · rw [jsInsert_cons, if_pos hc,
          getLast?_cons_of_ne_nil d (jsInsert_ne_nil k c (e :: t2))]
        exact ih ht h
      · rw [jsInsert_cons, if_neg hc]
        have hdc : k d < k c := lt_of_not_le hc
        have hm : m ∈ e :: t2 := getLast?_mem_of_eq h
        have hmd : k m ≤ k d := hd m hm
        have hcm : ¬ k c ≤ k m := by omega
        rw [if_neg hcm, List.getLast?_cons_cons, List.getLast?_cons_cons]
        exact h

theorem getLast?_foldl_jsInsert {α : Type} (k : α → ℤ) :
    ∀ (l acc : List α) (m : α), acc.Pairwise (fun a b => k b ≤ k a) →
      acc.getLast? = some m →
      ((l.foldl (fun x c => jsInsert k c x) acc).getLast? = some (lastMinBy k m l)) := by
  intro l
  induction l with
  | nil =>
    intro acc m _ h
    simpa [lastMinBy] using h
  | cons c t ih =>
    intro acc m hp h
    simp only [List.foldl_cons]
    have h2 := getLast?_jsInsert k (c := c) hp h
    exact ih _ _ (jsInsert_pairwise k hp) h2

theorem getLast?_jsSortDesc {α : Type} (k : α → ℤ) (x : α) (xs : List α) :
    (jsSortDesc k (x :: xs)).getLast? = some (lastMinBy k x xs) := by
  unfold jsSortDesc
  simp only [List.foldl_cons]
  exact getLast?_foldl_jsInsert k xs (jsInsert k x []) x (by simp [jsInsert])
    (by simp [jsInsert])

theorem le_firstMaxBy {α : Type} (k : α → ℤ) :
    ∀ (l : List α) (a x : α), x ∈ a :: l → k x ≤ k (firstMaxBy k a l) := by
  intro l
  induction l with
  | nil =>
    intro a x hx
    rcases (List.mem_singleton).1 hx with rfl
    exact le_refl _
  | cons c t ih =>
    intro a x hx
    have hb : k a ≤ k (if k a < k c then c else a) ∧ k c ≤ k (if k a < k c then c else a) := by
      by_cases h : k a < k c
      · simp [h, le_of_lt h]
      · simp [h, le_of_not_lt h]
    rcases (List.mem_cons).1 hx with rfl | hx
    · exact hb.1.trans (ih _ _ (List.mem_cons_self _ _))
    · rcases (List.mem_cons).1 hx with rfl | hx
      · exact hb.2.trans (ih _ _ (List.mem_cons_self _ _))
      · exact ih _ _ (List.mem_cons_of_mem _ hx)

theorem firstMaxBy_mem {α : Type} (k : α → ℤ) :
    ∀ (l : List α) (a : α), firstMaxBy k a l ∈ a :: l := by
  intro l
  induction l with
  | nil => intro a; simp [firstMaxBy]
  | cons c t ih =>
    intro a
    have h := ih (if k a < k c then c else a)
    rcases (List.mem_cons).1 h with h2 | h2
    · by_cases h3 : k a < k c
      · rw [show firstMaxBy k a (c :: t) = firstMaxBy k (if k a < k c then c else a) t from rfl,
          h2, if_pos h3]
        simp
      · rw [show firstMaxBy k a (c :: t) = firstMaxBy k (if k a < k c then c else a) t from rfl,
          h2, if_neg h3]
        simp
    · rw [show firstMaxBy k a (c :: t) = firstMaxBy k (if k a < k c then c else a) t from rfl]
      right; right; exact h2

theorem lastMinBy_le {α : Type} (k : α → ℤ) :
    ∀ (l : List α) (a x : α), x ∈ a :: l → k (lastMinBy k a l) ≤ k x := by
  intro l
  induction l with
  | nil =>
    intro a x hx
    rcases (List.mem_singleton).1 hx with rfl
    exact le_refl _
  | cons c t ih =>
    intro a x hx
    have hb : k (if k c ≤ k a then c else a) ≤ k a ∧ k (if k c ≤ k a then c else a) ≤ k c := by
      by_cases h : k c ≤ k a
      · simp [h]
      · simp [h, le_of_lt (lt_of_not_le h)]
    rcases (List.mem_cons).1 hx with rfl | hx
    · exact (ih _ _ (List.mem_cons_self _ _)).trans hb.1
    · rcases (List.mem_cons).1 hx with rfl | hx
      · exact (ih _ _ (List.mem_cons_self _ _)).trans hb.2
      · exact ih _ _ (List.mem_cons_of_mem _ hx)

theorem lastMinBy_mem {α : Type} (k : α → ℤ) :
    ∀ (l : List α) (a : α), lastMinBy k a l ∈ a :: l := by
  intro l
  induction l with
  | nil => intro a; simp [lastMinBy]
  | cons c t ih =>
    intro a
    have h := ih (if k c ≤ k a then c else a)
    rcases (List.mem_cons).1 h with h2 | h2
    · by_cases h3 : k c ≤ k a
      · rw [show lastMinBy k a (c :: t) = lastMinBy k (if k c ≤ k a then c else a) t from rfl,
          h2, if_pos h3]
        simp
      · rw [show lastMinBy k a (c :: t) = lastMinBy k (if k c ≤ k a then c else a) t from rfl,
          h2, if_neg h3]
        simp
    · rw [show lastMinBy k a (c :: t) = lastMinBy k (if k c ≤ k a then c else a) t from rfl]
      right; right; exact h2

theorem headD_of_head? {α : Type} {l : List α} {a : α} (d : α) (h : l.head? = some a) :
    l.headD d = a := by
  cases l with
  | nil => simp at h
  | cons x t => simpa using h

theorem getLastD_of_getLast? {α : Type} {l : List α} {a : α} (d : α)
    (h : l.getLast? = some a) : l.getLastD d = a := by
  rw [List.getLastD_eq_getLast?, h]
  rfl

/-! ## Score range lemmas -/

theorem scorePlans_bounds (cfg : RegexPreds) (sessions : List ParsedSession) :
    0 ≤ (scorePlans cfg sessions).score ∧ (scorePlans cfg sessions).score ≤ 100 := by
  unfold scorePlans
  by_cases h : sessions.isEmpty <;>
    simp [h, clamp_nonneg, clamp_le_hundred]

theorem scoreClarification_bounds (cfg : RegexPreds) (sessions : List ParsedSession) :
    0 ≤ (scoreClarification cfg sessions).score ∧
      (scoreClarification cfg sessions).score ≤ 100 := by
  exact ⟨clamp_nonneg _, clamp_le_hundred _⟩

theorem scoreDelegation_bounds (sessions : List ParsedSession) :
    0 ≤ (scoreDelegation sessions).score ∧ (scoreDelegation sessions).score ≤ 100 := by
  unfold scoreDelegation
  by_cases h : (sessions.map (fun s => s.subAgentSpawns.length)).sum = 0 <;>
    simp [h, clamp_nonneg, clamp_le_hundred]

theorem scoreFollowUpSpecificity_bounds (cfg : RegexPreds) (sessions : List ParsedSession) :
    0 ≤ (scoreFollowUpSpecificity cfg sessions).score ∧
      (scoreFollowUpSpecificity cfg sessions).score ≤ 100 := by
  exact ⟨clamp_nonneg _, clamp_le_hundred _⟩

theorem scoreTokenEfficiency_bounds (cfg : RegexPreds) (sessions : List ParsedSession) :
    0 ≤ (scoreTokenEfficiency cfg sessions).score ∧
      (scoreTokenEfficiency cfg sessions).score ≤ 100 := by
  exact ⟨clamp_nonneg _, clamp_le_hundred _⟩

theorem scoreSequencing_bounds (cfg : RegexPreds) (sessions : List ParsedSession) :
    0 ≤ (scoreSequencing cfg sessions).score ∧
      (scoreSequencing cfg sessions).score ≤ 100 := by
  exact ⟨clamp_nonneg _, clamp_le_hundred _⟩

theorem scoreCompactionManagement_bounds (sessions : List ParsedSession) :
    0 ≤ (scoreCompactionManagement sessions).score ∧
      (scoreCompactionManagement sessions).score ≤ 100 := by
  unfold scoreCompactionManagement
  by_cases h : (compactionTotals sessions).1 = 0 <;>
    simp [h, clamp_nonneg, clamp_le_hundred]

theorem scoreSessionLifecycle_bounds (sessions : List ParsedSession) :
    0 ≤ (scoreSessionLifecycle sessions).score ∧
      (scoreSessionLifecycle sessions).score ≤ 100 := by
  unfold scoreSessionLifecycle
  by_cases h : sessions.isEmpty <;>
    simp [h, clamp_nonneg, clamp_le_hundred]

theorem scoreErrorRecovery_bounds (sessions : List ParsedSession) :
    0 ≤ (scoreErrorRecovery sessions).score ∧
      (scoreErrorRecovery sessions).score ≤ 100 := by
  unfold scoreErrorRecovery
  by_cases h : totalCorrections sessions = 0 <;>
    simp [h, clamp_nonneg, clamp_le_hundred]

theorem scoreWorkspaceHygiene_bounds (sessions : List ParsedSession) :
    0 ≤ (scoreWorkspaceHygiene sessions).score ∧
      (scoreWorkspaceHygiene sessions).score ≤ 100 := by
  exact ⟨clamp_nonneg _, clamp_le_hundred _⟩

theorem scoreCrossSessionContinuity_bounds (sessions : List ParsedSession) :
    0 ≤ (scoreCrossSessionContinuity sessions).score ∧
      (scoreCrossSessionContinuity sessions).score ≤ 100 := by
  unfold scoreCrossSessionContinuity
  by_cases h : sessions.isEmpty <;>
    simp [h, clamp_nonneg, clamp_le_hundred]

theorem scoreVerification_bounds (sessions : List ParsedSession) :
    0 ≤ (scoreVerification sessions).score ∧ (scoreVerification sessions).score ≤ 100 := by
  unfold scoreVerification
  by_cases h : sessions.isEmpty <;>
    simp [h, clamp_nonneg, clamp_le_hundred]

theorem scoreCategories_bounds (cfg : RegexPreds) (sessions : List ParsedSession) :
    ∀ c ∈ scoreCategories cfg sessions, 0 ≤ c.score ∧ c.score ≤ 100 := by
  intro c hc
  simp only [scoreCategories, List.mem_cons, List.not_mem_nil, or_false] at hc
  rcases hc with rfl | rfl | rfl | rfl | rfl | rfl | rfl | rfl | rfl | rfl | rfl | rfl
  · exact scorePlans_bounds cfg sessions
  · exact scoreClarification_bounds cfg sessions
  · exact scoreDelegation_bounds sessions
  · exact scoreFollowUpSpecificity_bounds cfg sessions
  · exact scoreTokenEfficiency_bounds cfg sessions
  · exact scoreSequencing_bounds cfg sessions
  · exact scoreCompactionManagement_bounds sessions
  · exact scoreSessionLifecycle_bounds sessions
  · exact scoreErrorRecovery_bounds sessions
  · exact scoreWorkspaceHygiene_bounds sessions
  · exact scoreCrossSessionContinuity_bounds sessions
  · exact scoreVerification_bounds sessions

theorem sum_bounds_of_mem :
    ∀ (l : List ℤ), (∀ x ∈ l, 0 ≤ x ∧ x ≤ 100) →
      0 ≤ l.sum ∧ l.sum ≤ 100 * (l.length : ℤ) := by
  intro l
  induction l with
  | nil => intro _; simp
  | cons x t ih =>
    intro h
    have hx := h x (List.mem_cons_self x t)
    have ht := ih (fun y hy => h y (List.mem_cons_of_mem x hy))
    simp only [List.sum_cons, List.length_cons]
    push_cast
    constructor <;> linarith [hx.1, hx.2, ht.1, ht.2]


/-- Every letter grade has rank at most 10. -/
theorem gradeRankBound0 (x : ℚ) : gradeRank (letterGrade x) ≤ 10 := by
  unfold letterGrade
  split_ifs <;> decide

/-- Scores below 95 grade at rank at most 9. -/
theorem gradeRankBound1 (x : ℚ) (h1 : ¬ (95 : ℚ) ≤ x) :
    gradeRank (letterGrade x) ≤ 9 := by
  unfold letterGrade
  rw [if_neg h1]
  split_ifs <;> decide

/-- Scores below 90 grade at rank at most 8. -/
theorem gradeRankBound2 (x : ℚ) (h1 : ¬ (95 : ℚ) ≤ x) (h2 : ¬ (90 : ℚ) ≤ x) :
    gradeRank (letterGrade x) ≤ 8 := by
  unfold letterGrade
  rw [if_neg h1, if_neg h2]
  split_ifs <;> decide

/-- Scores below 85 grade at rank at most 7. -/
theorem gradeRankBound3 (x : ℚ) (h1 : ¬ (95 : ℚ) ≤ x) (h2 : ¬ (90 : ℚ) ≤ x) (h3 : ¬ (85 : ℚ) ≤ x) :
    gradeRank (letterGrade x) ≤ 7 := by
  unfold letterGrade
  rw [if_neg h1, if_neg h2, if_neg h3]
  split_ifs <;> decide

/-- Scores below 80 grade at rank at most 6. -/
theorem gradeRankBound4 (x : ℚ) (h1 : ¬ (95 : ℚ) ≤ x) (h2 : ¬ (90 : ℚ) ≤ x) (h3 : ¬ (85 : ℚ) ≤ x) (h4 : ¬ (80 : ℚ) ≤ x) :
    gradeRank (letterGrade x) ≤ 6 := by
  unfold letterGrade
  rw [if_neg h1, if_neg h2, if_neg h3, if_neg h4]
  split_ifs <;> decide

/-- Scores below 75 grade at rank at most 5. -/
theorem gradeRankBound5 (x : ℚ) (h1 : ¬ (95 : ℚ) ≤ x) (h2 : ¬ (90 : ℚ) ≤ x) (h3 : ¬ (85 : ℚ) ≤ x) (h4 : ¬ (80 : ℚ) ≤ x) (h5 : ¬ (75 : ℚ) ≤ x) :
    gradeRank (letterGrade x) ≤ 5 := by
  unfold letterGrade
  rw [if_neg h1, if_neg h2, if_neg h3, if_neg h4, if_neg h5]
  split_ifs <;> decide

/-- Scores below 70 grade at rank at most 4. -/
theorem gradeRankBound6 (x : ℚ) (h1 : ¬ (95 : ℚ) ≤ x) (h2 : ¬ (90 : ℚ) ≤ x) (h3 : ¬ (85 : ℚ) ≤ x) (h4 : ¬ (80 : ℚ) ≤ x) (h5 : ¬ (75 : ℚ) ≤ x) (h6 : ¬ (70 : ℚ) ≤ x) :
    gradeRank (letterGrade x) ≤ 4 := by
  unfold letterGrade
  rw [if_neg h1, if_neg h2, if_neg h3, if_neg h4, if_neg h5, if_neg h6]
  split_ifs <;> decide

/-- Scores below 65 grade at rank at most 3. -/
theorem gradeRankBound7 (x : ℚ) (h1 : ¬ (95 : ℚ) ≤ x) (h2 : ¬ (90 : ℚ) ≤ x) (h3 : ¬ (85 : ℚ) ≤ x) (h4 : ¬ (80 : ℚ) ≤ x) (h5 : ¬ (75 : ℚ) ≤ x) (h6 : ¬ (70 : ℚ) ≤ x) (h7 : ¬ (65 : ℚ) ≤ x) :
    gradeRank (letterGrade x) ≤ 3 := by
  unfold letterGrade
  rw [if_neg h1, if_neg h2, if_neg h3, if_neg h4, if_neg h5, if_neg h6, if_neg h7]
  split_ifs <;> decide

/-- Scores below 60 grade at rank at most 2. -/
theorem gradeRankBound8 (x : ℚ) (h1 : ¬ (95 : ℚ) ≤ x) (h2 : ¬ (90 : ℚ) ≤ x) (h3 : ¬ (85 : ℚ) ≤ x) (h4 : ¬ (80 : ℚ) ≤ x) (h5 : ¬ (75 : ℚ) ≤ x) (h6 : ¬ (70 : ℚ) ≤ x) (h7 : ¬ (65 : ℚ) ≤ x) (h8 : ¬ (60 : ℚ) ≤ x) :
    gradeRank (letterGrade x) ≤ 2 := by
  unfold letterGrade
  rw [if_neg h1, if_neg h2, if_neg h3, if_neg h4, if_neg h5, if_neg h6, if_neg h7, if_neg h8]
  split_ifs <;> decide

/-- Scores below 55 grade at rank at most 1. -/
theorem gradeRankBound9 (x : ℚ) (h1 : ¬ (95 : ℚ) ≤ x) (h2 : ¬ (90 : ℚ) ≤ x) (h3 : ¬ (85 : ℚ) ≤ x) (h4 : ¬ (80 : ℚ) ≤ x) (h5 : ¬ (75 : ℚ) ≤ x) (h6 : ¬ (70 : ℚ) ≤ x) (h7 : ¬ (65 : ℚ) ≤ x) (h8 : ¬ (60 : ℚ) ≤ x) (h9 : ¬ (55 : ℚ) ≤ x) :
    gradeRank (letterGrade x) ≤ 1 := by
  unfold letterGrade
  rw [if_neg h1, if_neg h2, if_neg h3, if_neg h4, if_neg h5, if_neg h6, if_neg h7, if_neg h8, if_neg h9]
  split_ifs <;> decide

/-- Scores below 50 grade at rank at most 0. -/
theorem gradeRankBound10 (x : ℚ) (h1 : ¬ (95 : ℚ) ≤ x) (h2 : ¬ (90 : ℚ) ≤ x) (h3 : ¬ (85 : ℚ) ≤ x) (h4 : ¬ (80 : ℚ) ≤ x) (h5 : ¬ (75 : ℚ) ≤ x) (h6 : ¬ (70 : ℚ) ≤ x) (h7 : ¬ (65 : ℚ) ≤ x) (h8 : ¬ (60 : ℚ) ≤ x) (h9 : ¬ (55 : ℚ) ≤ x) (h10 : ¬ (50 : ℚ) ≤ x) :
    gradeRank (letterGrade x) ≤ 0 := by
  unfold letterGrade
  rw [if_neg h1, if_neg h2, if_neg h3, if_neg h4, if_neg h5, if_neg h6, if_neg h7, if_neg h8, if_neg h9, if_neg h10]
  decide

/-! ## Pattern learner lemmas -/

theorem mem_of_mem_enum {β : Type} {l : List β} {i : ℕ} {x : β} (hx : (i, x) ∈ l.enum) :
    x ∈ l := by
  obtain ⟨h1, h2, h3⟩ := List.mem_enumFrom hx
  rw [h3]
  exact List.getElem_mem _

theorem dedupFirst_nodup (l : List String) : (dedupFirst l).Nodup := by
  suffices h : ∀ acc : List String, acc.Nodup →
      (l.foldl (fun acc k => if k ∈ acc then acc else acc ++ [k]) []).Nodup by
    exact h [] List.nodup_nil
  suffices h : ∀ (l2 : List String) (acc : List String), acc.Nodup →
      (l2.foldl (fun acc k => if k ∈ acc then acc else acc ++ [k]) acc).Nodup by
    intro acc _
    exact h l [] List.nodup_nil
  intro l2
  induction l2 with
  | nil => intro acc h; simpa using h
  | cons c t ih =>
    intro acc h
    simp only [List.foldl_cons]
    apply ih
    by_cases hc : c ∈ acc
    · simpa [hc] using h
    · simp [hc, List.nodup_append, h]

theorem extractKeywords_nodup (t : String) : (extractKeywords t).Nodup := by
  unfold extractKeywords
  exact dedupFirst_nodup _

theorem filter_contains_toFinset (a b : List String) :
    (a.filter (fun w => b.contains w)).toFinset = a.toFinset ∩ b.toFinset := by
  ext y
  simp [List.mem_filter]

theorem length_filter_contains_comm {a b : List String} (ha : a.Nodup) (hb : b.Nodup) :
    (a.filter (fun w => b.contains w)).length = (b.filter (fun w => a.contains w)).length := by
  have hfa : (a.filter (fun w => b.contains w)).Nodup := ha.filter _
  have hfb : (b.filter (fun w => a.contains w)).Nodup := hb.filter _
  rw [← List.toFinset_card_of_nodup hfa, ← List.toFinset_card_of_nodup hfb,
    filter_contains_toFinset, filter_contains_toFinset, Finset.inter_comm]

theorem keywordOverlap_comm {a b : List String} (ha : a.Nodup) (hb : b.Nodup) :
    keywordOverlap a b = keywordOverlap b a := by
  unfold keywordOverlap
  by_cases h : a.length = 0 ∨ b.length = 0
  · rw [if_pos h, if_pos (Or.symm h)]
  · rw [if_neg h, if_neg (fun hh => h (Or.symm hh))]
    rw [length_filter_contains_comm ha hb, Nat.min_comm]

theorem mkEntry_keywords_nodup (c : Correction) : (mkEntry c).keywords.Nodup :=
  extractKeywords_nodup _

theorem absorbs_comm (c d : Correction) :
    absorbs (mkEntry c) (mkEntry d) = absorbs (mkEntry d) (mkEntry c) := by
  unfold absorbs
  rw [keywordOverlap_comm (mkEntry_keywords_nodup c) (mkEntry_keywords_nodup d)]

/-! ## Claim theorems -/

/-- C1: for every session list, the scorecard's `overall` equals the rounded
arithmetic mean of its twelve category scores, and `overallGrade` is the
letter-grade threshold function applied to `overall`. -/
theorem C1_overall_is_rounded_mean (cfg : RegexPreds) (sessions : List ParsedSession)
    (p per : String) :
    (computeScorecard cfg sessions p per).overall =
      jsRound (((((computeScorecard cfg sessions p per).categories.map
        (fun c => c.score)).sum : ℤ) : ℚ) / 12) ∧
    (computeScorecard cfg sessions p per).overallGrade =
      letterGrade (((computeScorecard cfg sessions p per).overall : ℤ) : ℚ) := by
  have hcats : (computeScorecard cfg sessions p per).categories = scoreCategories cfg sessions :=
    rfl
  have hb := scoreCategories_bounds cfg sessions
  have hsum := sum_bounds_of_mem ((scoreCategories cfg sessions).map (fun c => c.score))
    (by
      intro x hx
      rcases List.mem_map.1 hx with ⟨c, hc, rfl⟩
      exact hb c hc)
  have hlen : ((scoreCategories cfg sessions).map (fun c => c.score)).length = 12 := by
    simp [scoreCategories]
  rw [hlen] at hsum
  set S : ℤ := ((scoreCategories cfg sessions).map (fun c => c.score)).sum with hS
  have hq0 : (0 : ℚ) ≤ (S : ℚ) / 12 := by
    apply div_nonneg _ (by norm_num)
    exact_mod_cast hsum.1
  have hq1 : (S : ℚ) / 12 ≤ 100 := by
    rw [div_le_iff₀ (by norm_num)]
    have : (S : ℚ) ≤ 1200 := by exact_mod_cast hsum.2
    linarith
  have hr0 : 0 ≤ jsRound ((S : ℚ) / 12) := jsRound_nonneg hq0
  have hr1 : jsRound ((S : ℚ) / 12) ≤ 100 := jsRound_le (by exact_mod_cast hq1)
  have hover : (computeScorecard cfg sessions p per).overall =
      clamp ((jsRound (((((scoreCategories cfg sessions).map (fun c => c.score)).sum : ℤ) : ℚ) /
        (((scoreCategories cfg sessions).length : ℕ) : ℚ)) : ℤ) : ℚ) := rfl
  have hlen2 : (((scoreCategories cfg sessions).length : ℕ) : ℚ) = 12 := by
    norm_num [scoreCategories]
  constructor
  · rw [hcats, hover, hlen2, ← hS]
    exact clamp_intCast hr0 hr1
  · rfl

set_option maxHeartbeats 2000000 in
/-- C4 (counterexample): on the empty session list four categories tie for the
maximal score 100; the stable descending sort puts the EARLIEST of them
(Clarification, index 1) first, so `highlights.best` is Clarification — not
Compaction Management (index 6), which the claimed "later index wins on a tie
for best" rule would select. -/
theorem C4_counterexample :
    (computeScorecard noPreds [] "p" "w").best.name = "Clarification" ∧
    (lastMaxCat ((computeScorecard noPreds [] "p" "w").categories)).name =
      "Compaction Management" ∧
    ("Clarification" : String) ≠ "Compaction Management" := by
  with_unfolding_all decide

/-- C4 (amended): `highlights.best` is the earliest-index category of maximal
score and `highlights.worst` is the latest-index category of minimal score
(the opposite tie-breaking to the claim); both are members of the category
list, `best` attains the maximum and `worst` the minimum. -/
theorem C4_highlights (cfg : RegexPreds) (sessions : List ParsedSession) (p per : String) :
    (computeScorecard cfg sessions p per).best = firstMaxCat (scoreCategories cfg sessions) ∧
    (computeScorecard cfg sessions p per).worst = lastMinCat (scoreCategories cfg sessions) ∧
    (computeScorecard cfg sessions p per).best ∈ (computeScorecard cfg sessions p per).categories ∧
    (computeScorecard cfg sessions p per).worst ∈ (computeScorecard cfg sessions p per).categories ∧
    (∀ c ∈ (computeScorecard cfg sessions p per).categories,
      c.score ≤ (computeScorecard cfg sessions p per).best.score ∧
      (computeScorecard cfg sessions p per).worst.score ≤ c.score) := by
  obtain ⟨x, xs, hxx⟩ : ∃ x xs, scoreCategories cfg sessions = x :: xs := ⟨_, _, rfl⟩
  have hbest : (computeScorecard cfg sessions p per).best =
      (jsSortDesc (fun c => c.score) (scoreCategories cfg sessions)).headD dumCat := rfl
  have hworst : (computeScorecard cfg sessions p per).worst =
      (jsSortDesc (fun c => c.score) (scoreCategories cfg sessions)).getLastD dumCat := rfl
  have hcats : (computeScorecard cfg sessions p per).categories = scoreCategories cfg sessions :=
    rfl
  have hb2 : (computeScorecard cfg sessions p per).best =
      firstMaxBy (fun c => c.score) x xs := by
    rw [hbest, hxx, headD_of_head? dumCat (head?_jsSortDesc (fun c => c.score) x xs)]
  have hw2 : (computeScorecard cfg sessions p per).worst =
      lastMinBy (fun c => c.score) x xs := by
    rw [hworst, hxx, getLastD_of_getLast? dumCat (getLast?_jsSortDesc (fun c => c.score) x xs)]
  refine ⟨?_, ?_, ?_, ?_, ?_⟩
  · rw [hb2, hxx]
    rfl
  · rw [hw2, hxx]
    rfl
  · rw [hb2, hcats, hxx]
    exact firstMaxBy_mem (fun c => c.score) xs x
  · rw [hw2, hcats, hxx]
    exact lastMinBy_mem (fun c => c.score) xs x
  · intro c hc
    rw [hcats, hxx] at hc
    rw [hb2, hw2]
    exact ⟨le_firstMaxBy (fun c => c.score) xs x c hc,
      lastMinBy_le (fun c => c.score) xs x c hc⟩

/-- Witness for C4: applying the best-highlight clause at the empty session
list. -/
theorem C4_highlights_witness :
    (computeScorecard noPreds [] "p" "w").best = firstMaxCat (scoreCategories noPreds []) :=
  (C4_highlights noPreds [] "p" "w").1

set_option maxHeartbeats 2000000 in
/-- C5 (counterexample): with zero sessions, Clarification — a percentage
category with denominator 0 — scores 100 (`pct` returns 100 on a zero
denominator), not a neutral default of 75. -/
theorem C5_counterexample :
    (scoreClarification noPreds []).score = 100 ∧
    (scoreClarification noPreds []).score ≠ 75 := by
  with_unfolding_all decide

set_option maxHeartbeats 4000000 in
set_option maxRecDepth 100000 in
/-- C5 (amended): on the empty session list the six no-data defaults score 75
and Error Recovery 95 as documented, but the zero-denominator percentage
categories (Clarification, Follow-up Specificity) score 100, Sequencing and
Compaction Management score 100, and Token Efficiency scores 40 (NaN ratio
falls to the lowest band); `overall` is 82, the rounded mean of those
values. -/
theorem C5_empty_sessions (cfg : RegexPreds) (p per : String) :
    ((computeScorecard cfg [] p per).categories.map (fun c => (c.name, c.score))) =
      [("Plans", 75), ("Clarification", 100), ("Delegation", 75),
       ("Follow-up Specificity", 100), ("Token Efficiency", 40), ("Sequencing", 100),
       ("Compaction Management", 100), ("Session Lifecycle", 75), ("Error Recovery", 95),
       ("Workspace Hygiene", 75), ("Cross-Session Continuity", 75), ("Verification", 75)] ∧
    (computeScorecard cfg [] p per).overall = 82 := by
  have hc : (computeScorecard cfg [] p per).categories = scoreCategories noPreds [] := rfl
  have ho : (computeScorecard cfg [] p per).overall =
      (computeScorecard noPreds [] "p" "w").overall := rfl
  constructor
  · rw [hc]
    with_unfolding_all decide
  · rw [ho]
    with_unfolding_all decide

set_option maxHeartbeats 2000000 in
/-- C7 (counterexample): for one session `[correction, assistant_response]`
the code clamps the base `100 − 0.5·500 = −150` to 0 before adding the bonus
`0.2·100 = 20` and returns 20, while the claimed single final clamp of
`100 − 250 + 20 = −130` yields 0. -/
theorem C7_counterexample :
    (scoreErrorRecovery [recSession]).score = 20 ∧
    clamp (100 - correctionRate [recSession] * 500 +
      ((pct (fastRecoveries [recSession] : ℚ) (totalCorrections [recSession] : ℚ) : ℤ) : ℚ) *
        0.2) = 0 ∧
    (20 : ℤ) ≠ 0 := by
  with_unfolding_all decide

/-- C7 (amended): with at least one correction, the base `100 − rate·500` is
rounded and clamped to [0,100] FIRST, and the bonus `0.2 ·
pct(fastRecoveries, corrections)` is then added and the sum clamped again;
with zero corrections the score is the fixed default 95. -/
theorem C7_error_recovery (sessions : List ParsedSession) :
    (scoreErrorRecovery sessions).score =
      (if totalCorrections sessions = 0 then 95
       else clamp (((clamp (100 - correctionRate sessions * 500) : ℤ) : ℚ) +
         ((pct (fastRecoveries sessions : ℚ) (totalCorrections sessions : ℚ) : ℤ) : ℚ) *
           0.2)) := by
  unfold scoreErrorRecovery
  by_cases h : totalCorrections sessions = 0
  · rw [if_pos h, if_pos h]
  · rw [if_neg h, if_neg h]

set_option maxHeartbeats 2000000 in
/-- C8 (code bug): the zero-correction branch of `scoreErrorRecovery`
hardcodes grade "A" with score 95, but the code's own `letterGrade` maps 95
to "A+"; the grade is computed independently of the score in this branch,
contradicting the claimed invariant (every other branch satisfies it). -/
theorem C8_grade_inconsistency :
    (scoreErrorRecovery []).score = 95 ∧
    (scoreErrorRecovery []).grade = "A" ∧
    letterGrade (((scoreErrorRecovery []).score : ℤ) : ℚ) = "A+" ∧
    ("A" : String) ≠ "A+" := by
  with_unfolding_all decide

set_option maxHeartbeats 800000 in
/-- C9: `letterGrade` is monotone — for scores `a ≤ b` the rank of the grade
of `a` (F lowest, A+ highest) never exceeds the rank of the grade of `b`. -/
theorem C9_letterGrade_monotone (a b : ℚ) (h : a ≤ b) :
    gradeRank (letterGrade a) ≤ gradeRank (letterGrade b) := by
  by_cases hb1 : (95 : ℚ) ≤ b
  · have hlgb : letterGrade b = "A+" := by
      unfold letterGrade
      rw [if_pos hb1]
    rw [hlgb]
    exact le_trans (gradeRankBound0 a) (by decide)
  ·
    by_cases hb2 : (90 : ℚ) ≤ b
    · have hlgb : letterGrade b = "A" := by
        unfold letterGrade
        rw [if_neg hb1, if_pos hb2]
      rw [hlgb]
      have ha1 : ¬ (95 : ℚ) ≤ a := by intro hc; exact hb1 (by linarith)
      exact le_trans (gradeRankBound1 a ha1) (by decide)
    ·
      by_cases hb3 : (85 : ℚ) ≤ b
      · have hlgb : letterGrade b = "A-" := by
          unfold letterGrade
          rw [if_neg hb1, if_neg hb2, if_pos hb3]
        rw [hlgb]
        have ha1 : ¬ (95 : ℚ) ≤ a := by intro hc; exact hb1 (by linarith)
        have ha2 : ¬ (90 : ℚ) ≤ a := by intro hc; exact hb2 (by linarith)
        exact le_trans (gradeRankBound2 a ha1 ha2) (by decide)
      ·
        by_cases hb4 : (80 : ℚ) ≤ b
        · have hlgb : letterGrade b = "B+" := by
            unfold letterGrade
            rw [if_neg hb1, if_neg hb2, if_neg hb3, if_pos hb4]
          rw [hlgb]
          have ha1 : ¬ (95 : ℚ) ≤ a := by intro hc; exact hb1 (by linarith)
          have ha2 : ¬ (90 : ℚ) ≤ a := by intro hc; exact hb2 (by linarith)
          have ha3 : ¬ (85 : ℚ) ≤ a := by intro hc; exact hb3 (by linarith)
          exact le_trans (gradeRankBound3 a ha1 ha2 ha3) (by decide)
        ·
          by_cases hb5 : (75 : ℚ) ≤ b
          · have hlgb : letterGrade b = "B" := by
              unfold letterGrade
              rw [if_neg hb1, if_neg hb2, if_neg hb3, if_neg hb4, if_pos hb5]
            rw [hlgb]
            have ha1 : ¬ (95 : ℚ) ≤ a := by intro hc; exact hb1 (by linarith)
            have ha2 : ¬ (90 : ℚ) ≤ a := by intro hc; exact hb2 (by linarith)
            have ha3 : ¬ (85 : ℚ) ≤ a := by intro hc; exact hb3 (by linarith)
            have ha4 : ¬ (80 : ℚ) ≤ a := by intro hc; exact hb4 (by linarith)
            exact le_trans (gradeRankBound4 a ha1 ha2 ha3 ha4) (by decide)
          ·
            by_cases hb6 : (70 : ℚ) ≤ b
            · have hlgb : letterGrade b = "B-" := by
                unfold letterGrade
                rw [if_neg hb1, if_neg hb2, if_neg hb3, if_neg hb4, if_neg hb5, if_pos hb6]
              rw [hlgb]
              have ha1 : ¬ (95 : ℚ) ≤ a := by intro hc; exact hb1 (by linarith)
              have ha2 : ¬ (90 : ℚ) ≤ a := by intro hc; exact hb2 (by linarith)
              have ha3 : ¬ (85 : ℚ) ≤ a := by intro hc; exact hb3 (by linarith)
              have ha4 : ¬ (80 : ℚ) ≤ a := by intro hc; exact hb4 (by linarith)
              have ha5 : ¬ (75 : ℚ) ≤ a := by intro hc; exact hb5 (by linarith)
              exact le_trans (gradeRankBound5 a ha1 ha2 ha3 ha4 ha5) (by decide)
            ·
              by_cases hb7 : (65 : ℚ) ≤ b
              · have hlgb : letterGrade b = "C+" := by
                  unfold letterGrade
                  rw [if_neg hb1, if_neg hb2, if_neg hb3, if_neg hb4, if_neg hb5, if_neg hb6, if_pos hb7]
                rw [hlgb]
                have ha1 : ¬ (95 : ℚ) ≤ a := by intro hc; exact hb1 (by linarith)
                have ha2 : ¬ (90 : ℚ) ≤ a := by intro hc; exact hb2 (by linarith)
                have ha3 : ¬ (85 : ℚ) ≤ a := by intro hc; exact hb3 (by linarith)
                have ha4 : ¬ (80 : ℚ) ≤ a := by intro hc; exact hb4 (by linarith)
                have ha5 : ¬ (75 : ℚ) ≤ a := by intro hc; exact hb5 (by linarith)
                have ha6 : ¬ (70 : ℚ) ≤ a := by intro hc; exact hb6 (by linarith)
                exact le_trans (gradeRankBound6 a ha1 ha2 ha3 ha4 ha5 ha6) (by decide)
              ·
                by_cases hb8 : (60 : ℚ) ≤ b
                · have hlgb : letterGrade b = "C" := by
                    unfold letterGrade
                    rw [if_neg hb1, if_neg hb2, if_neg hb3, if_neg hb4, if_neg hb5, if_neg hb6, if_neg hb7, if_pos hb8]
                  rw [hlgb]
                  have ha1 : ¬ (95 : ℚ) ≤ a := by intro hc; exact hb1 (by linarith)
                  have ha2 : ¬ (90 : ℚ) ≤ a := by intro hc; exact hb2 (by linarith)
                  have ha3 : ¬ (85 : ℚ) ≤ a := by intro hc; exact hb3 (by linarith)
                  have ha4 : ¬ (80 : ℚ) ≤ a := by intro hc; exact hb4 (by linarith)
                  have ha5 : ¬ (75 : ℚ) ≤ a := by intro hc; exact hb5 (by linarith)
                  have ha6 : ¬ (70 : ℚ) ≤ a := by intro hc; exact hb6 (by linarith)
                  have ha7 : ¬ (65 : ℚ) ≤ a := by intro hc; exact hb7 (by linarith)
                  exact le_trans (gradeRankBound7 a ha1 ha2 ha3 ha4 ha5 ha6 ha7) (by decide)
                ·
                  by_cases hb9 : (55 : ℚ) ≤ b
                  · have hlgb : letterGrade b = "C-" := by
                      unfold letterGrade
                      rw [if_neg hb1, if_neg hb2, if_neg hb3, if_neg hb4, if_neg hb5, if_neg hb6, if_neg hb7, if_neg hb8, if_pos hb9]
                    rw [hlgb]
                    have ha1 : ¬ (95 : ℚ) ≤ a := by intro hc; exact hb1 (by linarith)
                    have ha2 : ¬ (90 : ℚ) ≤ a := by intro hc; exact hb2 (by linarith)
                    have ha3 : ¬ (85 : ℚ) ≤ a := by intro hc; exact hb3 (by linarith)
                    have ha4 : ¬ (80 : ℚ) ≤ a := by intro hc; exact hb4 (by linarith)
                    have ha5 : ¬ (75 : ℚ) ≤ a := by intro hc; exact hb5 (by linarith)
                    have ha6 : ¬ (70 : ℚ) ≤ a := by intro hc; exact hb6 (by linarith)
                    have ha7 : ¬ (65 : ℚ) ≤ a := by intro hc; exact hb7 (by linarith)
                    have ha8 : ¬ (60 : ℚ) ≤ a := by intro hc; exact hb8 (by linarith)
                    exact le_trans (gradeRankBound8 a ha1 ha2 ha3 ha4 ha5 ha6 ha7 ha8) (by decide)
                  ·
                    by_cases hb10 : (50 : ℚ) ≤ b
                    · have hlgb : letterGrade b = "D" := by
                        unfold letterGrade
                        rw [if_neg hb1, if_neg hb2, if_neg hb3, if_neg hb4, if_neg hb5, if_neg hb6, if_neg hb7, if_neg hb8, if_neg hb9, if_pos hb10]
                      rw [hlgb]
                      have ha1 : ¬ (95 : ℚ) ≤ a := by intro hc; exact hb1 (by linarith)
                      have ha2 : ¬ (90 : ℚ) ≤ a := by intro hc; exact hb2 (by linarith)
                      have ha3 : ¬ (85 : ℚ) ≤ a := by intro hc; exact hb3 (by linarith)
                      have ha4 : ¬ (80 : ℚ) ≤ a := by intro hc; exact hb4 (by linarith)
                      have ha5 : ¬ (75 : ℚ) ≤ a := by intro hc; exact hb5 (by linarith)
                      have ha6 : ¬ (70 : ℚ) ≤ a := by intro hc; exact hb6 (by linarith)
                      have ha7 : ¬ (65 : ℚ) ≤ a := by intro hc; exact hb7 (by linarith)
                      have ha8 : ¬ (60 : ℚ) ≤ a := by intro hc; exact hb8 (by linarith)
                      have ha9 : ¬ (55 : ℚ) ≤ a := by intro hc; exact hb9 (by linarith)
                      exact le_trans (gradeRankBound9 a ha1 ha2 ha3 ha4 ha5 ha6 ha7 ha8 ha9) (by decide)
                    ·
                      have hlgb : letterGrade b = "F" := by
                        unfold letterGrade
                        rw [if_neg hb1, if_neg hb2, if_neg hb3, if_neg hb4, if_neg hb5, if_neg hb6, if_neg hb7, if_neg hb8, if_neg hb9, if_neg hb10]
                      rw [hlgb]
                      have ha1 : ¬ (95 : ℚ) ≤ a := by intro hc; exact hb1 (by linarith)
                      have ha2 : ¬ (90 : ℚ) ≤ a := by intro hc; exact hb2 (by linarith)
                      have ha3 : ¬ (85 : ℚ) ≤ a := by intro hc; exact hb3 (by linarith)
                      have ha4 : ¬ (80 : ℚ) ≤ a := by intro hc; exact hb4 (by linarith)
                      have ha5 : ¬ (75 : ℚ) ≤ a := by intro hc; exact hb5 (by linarith)
                      have ha6 : ¬ (70 : ℚ) ≤ a := by intro hc; exact hb6 (by linarith)
                      have ha7 : ¬ (65 : ℚ) ≤ a := by intro hc; exact hb7 (by linarith)
                      have ha8 : ¬ (60 : ℚ) ≤ a := by intro hc; exact hb8 (by linarith)
                      have ha9 : ¬ (55 : ℚ) ≤ a := by intro hc; exact hb9 (by linarith)
                      have ha10 : ¬ (50 : ℚ) ≤ a := by intro hc; exact hb10 (by linarith)
                      exact le_trans (gradeRankBound10 a ha1 ha2 ha3 ha4 ha5 ha6 ha7 ha8 ha9 ha10) (by decide)

/-- Witness for C9 at the concrete scores 72 ≤ 88. -/
theorem C9_letterGrade_monotone_witness :
    (72 : ℚ) ≤ 88 ∧ gradeRank (letterGrade 72) ≤ gradeRank (letterGrade 88) :=
  ⟨by norm_num, C9_letterGrade_monotone 72 88 (by norm_num)⟩

/-- C10: `scoreWorkspaceHygiene` always returns the baseline 75 plus 5 points
per session referencing `.claude/` or `CLAUDE.md`, capped at +20, so the
score lies in [75, 95]. -/
theorem C10_workspace_hygiene (sessions : List ParsedSession) :
    75 ≤ (scoreWorkspaceHygiene sessions).score ∧
    (scoreWorkspaceHygiene sessions).score ≤ 95 ∧
    (scoreWorkspaceHygiene sessions).score =
      75 + min (5 * (sessions.countP hygieneHit : ℤ)) 20 := by
  have hval : (scoreWorkspaceHygiene sessions).score =
      clamp ((75 : ℚ) + ((if 0 < sessions.countP hygieneHit then
        min (sessions.countP hygieneHit * 5) 20 else 0 : ℕ) : ℚ)) := rfl
  set n : ℕ := sessions.countP hygieneHit with hn
  have hite : (if 0 < n then min (n * 5) 20 else 0 : ℕ) = min (n * 5) 20 := by
    by_cases h : 0 < n
    · rw [if_pos h]
    · rw [if_neg h]
      have : n = 0 := by omega
      simp [this]
  rw [hite] at hval
  have hcast : ((75 : ℚ) + ((min (n * 5) 20 : ℕ) : ℚ)) =
      (((75 + (min (n * 5) 20 : ℕ) : ℤ) : ℤ) : ℚ) := by
    push_cast
    ring
  rw [hcast, clamp_intCast (by omega) (by
    have := Nat.min_le_right (n * 5) 20
    omega)] at hval
  have hmin : (75 + (min (n * 5) 20 : ℕ) : ℤ) = 75 + min (5 * (n : ℤ)) 20 := by
    push_cast
    omega
  rw [hval, hmin]
  refine ⟨by omega, by omega, rfl⟩


set_option maxHeartbeats 2000000 in
/-- C2: `extractPatterns` is (a permutation-stable sort of) exactly the greedy
clusters of size at least 2, one pattern per cluster with `frequency` equal to
the cluster size; the result is sorted by descending frequency; and on the
scenario log the two auth/jwt/expiry corrections cluster into one pattern of
frequency 2 while the unrelated correction is excluded. -/
theorem C2_extractPatterns (corrections : List Correction) :
    (extractPatterns corrections).Perm
      (((greedyCluster (corrections.map mkEntry)).filter
        (fun g => decide (2 ≤ g.length))).enum.map (fun ig => mkPattern ig.1 ig.2)) ∧
    (extractPatterns corrections).Pairwise (fun p q => q.frequency ≤ p.frequency) ∧
    (∀ p ∈ extractPatterns corrections,
      ∃ g ∈ (greedyCluster (corrections.map mkEntry)).filter (fun g => decide (2 ≤ g.length)),
        2 ≤ g.length ∧ p.frequency = g.length) ∧
    (extractPatterns scenarioLog).map (fun p => (p.frequency, p.keywords)) =
      [(2, ["auth", "jwt", "expiry"])] := by
  by_cases h : corrections.isEmpty = true
  · have h0 : corrections = [] := by simpa using h
    subst h0
    refine ⟨by simp [extractPatterns, greedyCluster, greedyClusterAux], ?_, ?_, ?_⟩
    · simp [extractPatterns]
    · intro p hp
      simp [extractPatterns] at hp
    · with_unfolding_all decide
  · have heq : extractPatterns corrections =
        jsSortDesc (fun p => (p.frequency : ℤ))
          ((((greedyCluster (corrections.map mkEntry)).filter
            (fun g => decide (2 ≤ g.length))).enum.map (fun ig => mkPattern ig.1 ig.2))) := by
      unfold extractPatterns
      rw [if_neg h]
    refine ⟨?_, ?_, ?_, ?_⟩
    · rw [heq]
      exact jsSortDesc_perm _ _
    · rw [heq]
      exact (jsSortDesc_pairwise (fun p : CorrectionPattern => (p.frequency : ℤ)) _).imp
        (fun hpq => by exact_mod_cast hpq)
    · intro p hp
      rw [heq] at hp
      have hp2 := (jsSortDesc_perm (fun p : CorrectionPattern => (p.frequency : ℤ)) _).mem_iff.1 hp
      rcases List.mem_map.1 hp2 with ⟨ig, hig, rfl⟩
      obtain ⟨i, g⟩ := ig
      refine ⟨g, mem_of_mem_enum hig, ?_, rfl⟩
      have hgf := (List.mem_filter.1 (mem_of_mem_enum hig)).2
      exact of_decide_eq_true hgf
    · with_unfolding_all decide

set_option maxHeartbeats 1000000 in
/-- Witness for C2: applying the cluster-size clause at the scenario log and
its frequency-2 pattern. -/
theorem C2_extractPatterns_witness :
    ∃ g ∈ (greedyCluster (scenarioLog.map mkEntry)).filter (fun g => decide (2 ≤ g.length)),
      2 ≤ g.length ∧
        (CorrectionPattern.mk "p1" ["auth", "jwt", "expiry"] 2).frequency = g.length :=
  (C2_extractPatterns scenarioLog).2.2.1 ⟨"p1", ["auth", "jwt", "expiry"], 2⟩
    (by with_unfolding_all decide)

set_option maxHeartbeats 1000000 in
/-- C3: `matchPatterns` returns exactly the patterns with at least 2 keywords
occurring (lowercased) as substrings of the lowercased prompt; the
auth/token/expiry pattern matches "auth token refresh broke again" and does
not match "fix the button color". -/
theorem C3_matchPatterns (prompt : String) (patterns : List CorrectionPattern)
    (p : CorrectionPattern) :
    (p ∈ matchPatterns prompt patterns ↔
      p ∈ patterns ∧
        2 ≤ (p.keywords.filter (fun kw => strIncl (lowerStr prompt) (lowerStr kw))).length) ∧
    matchPatterns "auth token refresh broke again" [patAuth] = [patAuth] ∧
    matchPatterns "fix the button color" [patAuth] = [] := by
  refine ⟨?_, ?_, ?_⟩
  · unfold matchPatterns
    by_cases h : patterns.isEmpty = true
    · have h0 : patterns = [] := by simpa using h
      subst h0
      simp
    · rw [if_neg h]
      simp [List.mem_filter]
  · with_unfolding_all decide
  · with_unfolding_all decide

set_option maxHeartbeats 2000000 in
/-- C6 (counterexample): the three-correction chain log (overlaps A-B and B-C
are 1/2, A-C is 0) clusters as one two-element cluster in the order A,B,C but
as one three-element cluster after swapping A and B, so cluster membership is
not permutation-invariant. -/
theorem C6_counterexample :
    List.Perm [chainA, chainB, chainC] [chainB, chainA, chainC] ∧
    clusterSets [chainA, chainB, chainC] ≠ clusterSets [chainB, chainA, chainC] := by
  with_unfolding_all decide

/-- Greedy clustering of a two-entry log: one cluster when the overlap
absorbs, two singletons otherwise. -/
theorem greedyCluster_two (e f : Entry) :
    greedyCluster [e, f] = if absorbs e f then [[e, f]] else [[e], [f]] := by
  have h1 : greedyCluster [e, f] =
      (e :: List.filter (fun x => absorbs e x) [f]) ::
        greedyClusterAux 1 (List.filter (fun x => !(absorbs e x)) [f]) := rfl
  rw [h1]
  cases habs : absorbs e f
  · rw [if_neg (by simp [habs])]
    simp only [List.filter_cons, List.filter_nil, habs, Bool.not_false, if_neg, ite_true,
      ite_false, Bool.false_eq_true, reduceIte]
    rfl
  · rw [if_pos rfl]
    simp only [List.filter_cons, List.filter_nil, habs, Bool.not_true, ite_true, ite_false,
      Bool.false_eq_true, reduceIte]
    rfl

/-- C6 (amended): the overlap ratio is symmetric on the (duplicate-free)
keyword sets of corrections, and cluster membership is order-insensitive for
logs of at most two corrections; with three or more corrections a permutation
can change membership. -/
theorem C6_overlap_symm_two_logs :
    (∀ c d : Correction, keywordOverlap (mkEntry c).keywords (mkEntry d).keywords =
      keywordOverlap (mkEntry d).keywords (mkEntry c).keywords) ∧
    (∀ c d : Correction, clusterSets [c, d] = clusterSets [d, c]) := by
  have hkw : ∀ c : Correction, (mkEntry c).keywords.Nodup := fun c =>
    extractKeywords_nodup _
  constructor
  · intro c d
    exact keywordOverlap_comm (hkw c) (hkw d)
  · intro c d
    have hmapcd : ([c, d].map mkEntry) = [mkEntry c, mkEntry d] := rfl
    have hmapdc : ([d, c].map mkEntry) = [mkEntry d, mkEntry c] := rfl
    unfold clusterSets
    rw [hmapcd, hmapdc, greedyCluster_two, greedyCluster_two, absorbs_comm d c]
    cases habs : absorbs (mkEntry c) (mkEntry d)
    · simp
    · simp only [if_pos rfl, ite_true]
      have hlen : (List.filter (fun g => decide (2 ≤ g.length)) [[mkEntry c, mkEntry d]]) =
          [[mkEntry c, mkEntry d]] := by simp
      have hlen2 : (List.filter (fun g => decide (2 ≤ g.length)) [[mkEntry d, mkEntry c]]) =
          [[mkEntry d, mkEntry c]] := by simp
      rw [hlen, hlen2]
      simp only [List.map_cons, List.map_nil]
      have hinner : (([(mkEntry c).text, (mkEntry d).text] : List String) : Multiset String) =
          (([(mkEntry d).text, (mkEntry c).text] : List String) : Multiset String) :=
        Multiset.coe_eq_coe.2 (List.Perm.swap _ _ _)
      rw [hinner]

end PromptDiscipline
